import Mathlib

/-!
# fakehttp: a scriptable HTTP test double

A shallow embedding of `fakehttp.go` and the properties of its rendezvous
protocol.

Modelling conventions
* Go `string` is `String`, Go `int` is `Int`, `[]byte` is `List UInt8`, and
  `[]byte(s)` is the UTF-8 encoding of `s`.
* A Go `map[string]V` is an association list `List (String × V)` whose keys are
  pairwise distinct (`GoMap.Valid`); a `nil` map of headers is `none`.  The
  order in which `range` visits a map is not fixed by the language, so every
  function that ranges over a map takes the visiting order as an argument and
  the theorems quantify over all such orders.
* A buffered channel is its capacity together with the FIFO list of buffered
  elements; a `nil` channel (the fields of a server that was never started) is
  `none`.  The model is the sequential one: one handler invocation or driver
  call runs at a time, so a send on a full or `nil` channel never completes
  (`Result.blocked`), and a `select` against `time.After` takes the receive
  when the queue holds an element and the timer otherwise.
* `panic` is `Result.panic` and carries the state reached so far.
* The `http.ResponseWriter` is modelled by the sequence of calls made on it.
  It is the writer of `http.Serve`, whose `WriteHeader` panics on a status
  outside 100..999; the handler then panics without reaching `Write`.
* `make([]*http.Request, 0, n)` panics for a negative `n` and for an `n` above
  the runtime's limit on a 64-bit platform (`maxSliceCap`); running out of
  memory below that limit is not modelled.
-/

namespace fakehttp

/-! ## Data model -/

/-- The struct `Response`: a status (0 = leave the default), optional headers
(`none` = the `nil` map) and a body. -/
structure Response where
  Status : Int
  Headers : Option (List (String × String))
  Body : String
deriving DecidableEq, Repr

/-- The part of `*http.Request` the handler touches: method, `URL.Path`,
headers, and the body stream, given by the bytes not yet read from it and the
error (if any) the stream yields once those bytes are exhausted. -/
structure Request where
  Method : String
  Path : String
  Header : List (String × String)
  Body : List UInt8
  BodyErr : Option String
deriving DecidableEq, Repr

/-- The struct `SavedRequest`. -/
structure SavedRequest where
  Request : Request
  Data : List UInt8
deriving DecidableEq, Repr

/-- The type `ResponseFunc func(path string) Response`. -/
abbrev ResponseFunc := String → Response

/-- The type `ResponseMap map[string]Response`. -/
abbrev ResponseMap := List (String × Response)

/-- Keys of a Go map are pairwise distinct. -/
def GoMap.Valid {V : Type} (m : List (String × V)) : Prop :=
  (m.map Prod.fst).Nodup

instance {V : Type} (m : List (String × V)) : Decidable (GoMap.Valid m) :=
  inferInstanceAs (Decidable (m.map Prod.fst).Nodup)

/-- A buffered channel `make(chan α, cap)`: capacity and buffered elements,
oldest first. -/
structure Chan (α : Type) where
  cap : Nat
  buf : List α

/-- The expression `make(chan α, n)`. -/
def Chan.make (α : Type) (n : Nat) : Chan α := ⟨n, []⟩

/-- Send `c <- x` on a possibly `nil` channel: `none` when the send cannot
complete (the channel is `nil` or its buffer is full). -/
def Chan.send {α : Type} (c : Option (Chan α)) (x : α) : Option (Chan α) :=
  match c with
  | none => none
  | some ch => if ch.buf.length < ch.cap then some { ch with buf := ch.buf ++ [x] } else none

/-- Receive `<-c` on a possibly `nil` channel: `none` when nothing is ready
(the channel is `nil` or its buffer is empty). -/
def Chan.recv {α : Type} (c : Option (Chan α)) : Option (α × Chan α) :=
  match c with
  | none => none
  | some ch =>
    match ch.buf with
    | [] => none
    | x :: rest => some (x, { ch with buf := rest })

/-- The struct `HTTPServer`.  `URL` is the URL in string form and `Timeout` a
duration in nanoseconds. -/
structure HTTPServer where
  URL : String
  Timeout : Int
  started : Bool
  request : Option (Chan Request)
  response : Option (Chan ResponseFunc)
  SavedRequests : List SavedRequest

/-- Outcome of a driver call or handler invocation: normal return with a value,
a `panic` with its message, or a send that never completes.  Each carries the
server state reached. -/
inductive Result (α : Type) where
  | ok (val : α) (s : HTTPServer)
  | panic (msg : String) (s : HTTPServer)
  | blocked (s : HTTPServer)

/-- Buffered elements of a possibly `nil` channel. -/
def queued {α : Type} (c : Option (Chan α)) : List α :=
  match c with
  | none => []
  | some ch => ch.buf

/-! ## Response scripting API -/

/-- The loop `for i := 0; i < n; i++ { s.response <- f }`, for the `k`
iterations that remain. -/
def sendResponses : Nat → ResponseFunc → HTTPServer → Result Unit
  | 0, _, s => Result.ok () s
  | k + 1, f, s =>
    match Chan.send s.response f with
    | none => Result.blocked s
    | some c => sendResponses k f { s with response := some c }

/-- The method `ResponseFunc(n, f)`. -/
def HTTPServer.ResponseFunc (s : HTTPServer) (n : Int) (f : ResponseFunc) : Result Unit :=
  sendResponses n.toNat f s

/-- The loop `for rpath, resp := range m { if rpath == path { return resp } }`
over the entries in visiting order: the first hit, if any. -/
def rangeFind (path : String) : List (String × Response) → Option Response
  | [] => none
  | (rpath, resp) :: rest => if rpath == path then some resp else rangeFind path rest

/-- The closure `f` built by `ResponseMap`; `order` is the order in which
`range` visits the entries of the map. -/
def responseMapFunc (order : ResponseMap → ResponseMap) (m : ResponseMap) : ResponseFunc :=
  fun path =>
    match rangeFind path (order m) with
    | some resp => resp
    | none => { Status := 500, Headers := none, Body := "Path not found in response map: " ++ path }

/-- The method `ResponseMap(n, m)`. -/
def HTTPServer.ResponseMap (s : HTTPServer) (order : ResponseMap → ResponseMap) (n : Int)
    (m : ResponseMap) : Result Unit :=
  s.ResponseFunc n (responseMapFunc order m)

/-- The closure `f` built by `Responses`. -/
def fixedFunc (status : Int) (headers : Option (List (String × String))) (body : String) :
    ResponseFunc :=
  fun _ => { Status := status, Headers := headers, Body := body }

/-- The method `Responses(n, status, headers, body)`. -/
def HTTPServer.Responses (s : HTTPServer) (n : Int) (status : Int)
    (headers : Option (List (String × String))) (body : String) : Result Unit :=
  s.ResponseFunc n (fixedFunc status headers body)

/-- The method `Response(status, headers, body)`. -/
def HTTPServer.Response (s : HTTPServer) (status : Int)
    (headers : Option (List (String × String))) (body : String) : Result Unit :=
  s.Responses 1 status headers body

/-! ## Handler -/

/-- What the HTTP stack contributes to one handler invocation and the handler
does not control: how many bytes of the body stream `ParseMultipartForm` reads
before the handler drains the rest, and the order in which `range` visits the
headers of a descriptor. -/
structure Transport where
  parseReads : Request → Nat
  headerOrder : List (String × String) → List (String × String)

/-- A call made on the `http.ResponseWriter`. -/
inductive WriterCall where
  | setHeader (k v : String)
  | writeHeader (status : Int)
  | write (p : List UInt8)
deriving DecidableEq, Repr

/-- Observable effects of one handler invocation: the calls on the response
writer in order, each invocation of a dequeued producer with its argument, and
the lines printed on the error stream. -/
structure HandlerOut where
  calls : List WriterCall
  invoked : List (ResponseFunc × String)
  stderr : List String

/-- The conversion `[]byte(s)`. -/
def bytes (s : String) : List UInt8 := s.toUTF8.data.toList

/-- The constant `msg` of the timeout branch. -/
def timeoutMsg : String := "ERROR: Timeout waiting for test to prepare a response\n"

/-- The check the response writer of `http.Serve` makes in `WriteHeader(code)`:
a code outside 100..999 makes the call panic. -/
def validStatus (code : Int) : Bool := decide (100 ≤ code ∧ code ≤ 999)

/-- The loop `for k, v := range resp.Headers { h.Set(k, v) }` under
`if resp.Headers != nil`. -/
def setHeaders (t : Transport) (resp : Response) : List WriterCall :=
  match resp.Headers with
  | some h => (t.headerOrder h).map (fun kv => WriterCall.setHeader kv.1 kv.2)
  | none => []

/-- The tail of `ServeHTTP` after the `select`: headers when non-nil, the
status when non-zero, then the body.  The value is the list of calls made on
the writer, or the message of the panic raised by `WriteHeader` on a status it
rejects, in which case `Write` is not reached. -/
def writeResponse (t : Transport) (resp : Response) : Except String (List WriterCall) :=
  if resp.Status ≠ 0 then
    if validStatus resp.Status then
      Except.ok (setHeaders t resp ++ [WriterCall.writeHeader resp.Status]
        ++ [WriterCall.write (bytes resp.Body)])
    else Except.error ("invalid WriteHeader code " ++ toString resp.Status)
  else Except.ok (setHeaders t resp ++ [WriterCall.write (bytes resp.Body)])

/-- The method `ServeHTTP(w, req)`. -/
def HTTPServer.ServeHTTP (s : HTTPServer) (t : Transport) (req : Request) : Result HandlerOut :=
  -- req.ParseMultipartForm(1e6)
  let req := { req with Body := req.Body.drop (t.parseReads req) }
  -- data, err := ioutil.ReadAll(req.Body)
  match req.BodyErr with
  | some err => Result.panic err s
  | none =>
    let data := req.Body
    -- req.Body = ioutil.NopCloser(bytes.NewBuffer(data))
    let req := { req with Body := data }
    let s := { s with SavedRequests := s.SavedRequests ++ [{ Request := req, Data := data }] }
    -- s.request <- req
    match Chan.send s.request req with
    | none => Result.blocked s
    | some c =>
      let s := { s with request := some c }
      match Chan.recv s.response with
      | some (respFunc, c') =>
        let resp := respFunc req.Path
        match writeResponse t resp with
        | Except.ok calls =>
          Result.ok { calls := calls, invoked := [(respFunc, req.Path)], stderr := [] }
            { s with response := some c' }
        | Except.error msg => Result.panic msg { s with response := some c' }
      | none =>
        let resp : fakehttp.Response := { Status := 500, Headers := none, Body := timeoutMsg }
        match writeResponse t resp with
        | Except.ok calls => Result.ok { calls := calls, invoked := [], stderr := [timeoutMsg] } s
        | Except.error msg => Result.panic msg s

/-! ## Waiting for requests -/

/-- The loop of `WaitRequests` for the `k` iterations that remain, `reqs` being
the slice built so far. -/
def recvRequests : Nat → List Request → HTTPServer → Result (List Request)
  | 0, reqs, s => Result.ok reqs s
  | k + 1, reqs, s =>
    match Chan.recv s.request with
    | some (req, c) => recvRequests k (reqs ++ [req]) { s with request := some c }
    | none => Result.panic "Timeout waiting for request" s

/-- The largest capacity `make([]*http.Request, 0, n)` accepts on a 64-bit
platform: the runtime refuses a slice of more than 2^48 bytes, and a pointer
takes 8.  Exhaustion of the memory at hand below that limit is not modelled. -/
def maxSliceCap : Nat := 2 ^ 45

/-- The method `WaitRequests(n)`.  The slice is made before the loop, and
`make` panics on a capacity that is negative or above `maxSliceCap`. -/
def HTTPServer.WaitRequests (s : HTTPServer) (n : Int) : Result (List Request) :=
  if n < 0 ∨ (maxSliceCap : Int) < n then
    Result.panic "runtime error: makeslice: cap out of range" s
  else recvRequests n.toNat [] s

/-- The method `WaitRequest()`, that is `s.WaitRequests(1)[0]`. -/
def HTTPServer.WaitRequest (s : HTTPServer) : Result Request :=
  match s.WaitRequests 1 with
  | Result.ok reqs s1 =>
    match reqs with
    | req :: _ => Result.ok req s1
    | [] => Result.panic "runtime error: index out of range [0] with length 0" s1
  | Result.panic msg s1 => Result.panic msg s1
  | Result.blocked s1 => Result.blocked s1

/-! ## Flush -/

/-- Number of queued requests and producers. -/
def pending (s : HTTPServer) : Nat :=
  (queued s.request).length + (queued s.response).length

/-- The loop of `Flush`.  When both queues are ready `select` picks either;
`pick i` tells whether iteration `i` takes the request queue. -/
def flushLoop (pick : Nat → Bool) (i : Nat) (s : HTTPServer) : HTTPServer :=
  match hq : Chan.recv s.request, hp : Chan.recv s.response with
  | some (_, c), some (_, c') =>
    if pick i then flushLoop pick (i + 1) { s with request := some c }
    else flushLoop pick (i + 1) { s with response := some c' }
  | some (_, c), none => flushLoop pick (i + 1) { s with request := some c }
  | none, some (_, c') => flushLoop pick (i + 1) { s with response := some c' }
  | none, none => s
termination_by pending s
decreasing_by
  all_goals simp_wf
  all_goals simp only [pending]
  all_goals
    have key : ∀ {α : Type} {c : Option (Chan α)} {x : α} {c1 : Chan α},
        Chan.recv c = some (x, c1) → (queued (some c1)).length + 1 = (queued c).length := by
      intro α c x c1 h
      cases c with
      | none => simp [Chan.recv] at h
      | some ch =>
        cases hb : ch.buf with
        | nil => simp [Chan.recv, hb] at h
        | cons y rest =>
          simp only [Chan.recv, hb, Option.some.injEq, Prod.mk.injEq] at h
          obtain ⟨-, rfl⟩ := h
          simp [queued, hb]
    first
      | (have h1 := key hq; omega)
      | (have h2 := key hp; omega)

/-- The method `Flush()`. -/
def HTTPServer.Flush (s : HTTPServer) (pick : Nat → Bool) : HTTPServer :=
  flushLoop pick 0 s

/-! ## Construction and start-up -/

/-- The constructor `NewHTTPServerWithPort(port)`.  `parseOk` tells whether
`url.Parse` accepts a URL string. -/
def NewHTTPServerWithPort (parseOk : String → Bool) (port : Int) : Except String HTTPServer :=
  let urlString := "http://localhost:" ++ toString port
  if parseOk urlString then
    Except.ok
      { URL := urlString, Timeout := 25 * 1000000000, started := false, request := none,
        response := none, SavedRequests := [] }
  else Except.error ("Cannot parse url: " ++ urlString)

/-- The constructor `NewHTTPServer()`. -/
def NewHTTPServer (parseOk : String → Bool) : Except String HTTPServer :=
  NewHTTPServerWithPort parseOk 4444

/-- An action of `Start` on the outside world: binding the listener for a URL,
launching the serving loop, a `GET` of a URL, a sleep of so many nanoseconds. -/
inductive Effect where
  | listen (url : String)
  | serve
  | get (url : String)
  | sleep (ns : Nat)
deriving DecidableEq, Repr

/-- What the outside world contributes to `Start`: the error of `net.Listen`, if
any; how many of the first `GET`s fail to connect; and the request the HTTP
stack hands to the handler for the `GET` of the server's URL. -/
structure StartEnv where
  listenErr : Option String
  refused : Nat
  probe : Request

/-- The status code a client reads off a handler's calls: the first
`WriteHeader` if it precedes every `Write`, and the default 200 otherwise. -/
def statusCode : List WriterCall → Int
  | [] => 200
  | WriterCall.writeHeader st :: _ => st
  | WriterCall.write _ :: _ => 200
  | WriterCall.setHeader _ _ :: rest => statusCode rest

/-- The readiness loop of `Start`, `fuel` bounding its iterations (`none` when
the bound is hit) and `refused` counting the connection attempts still going to
fail.  A `GET` that connects runs the handler on the probe request; a handler
that panics makes the `GET` fail, one that blocks keeps the `GET` from
returning. -/
def waitUp (t : Transport) (e : StartEnv) :
    Nat → Nat → HTTPServer → List Effect → Option (Result (List Effect))
  | 0, _, _, _ => none
  | fuel + 1, refused + 1, s, eff =>
    waitUp t e fuel refused s (eff ++ [Effect.get s.URL, Effect.sleep 100000000])
  | fuel + 1, 0, s, eff =>
    match s.ServeHTTP t e.probe with
    | Result.ok out s1 =>
      if statusCode out.calls = 203 then some (Result.ok (eff ++ [Effect.get s.URL]) s1)
      else waitUp t e fuel 0 s1 (eff ++ [Effect.get s.URL, Effect.sleep 100000000])
    | Result.panic _ s1 =>
      waitUp t e fuel 0 s1 (eff ++ [Effect.get s.URL, Effect.sleep 100000000])
    | Result.blocked s1 => some (Result.blocked s1)

/-- The method `Start()`; the value returned is the list of its actions on the
outside world. -/
def HTTPServer.Start (s : HTTPServer) (t : Transport) (e : StartEnv) (fuel : Nat) :
    Option (Result (List Effect)) :=
  if s.started then some (Result.ok [] s)
  else
    let s := { s with started := true, request := some (Chan.make Request 1024),
                      response := some (Chan.make fakehttp.ResponseFunc 1024) }
    match e.listenErr with
    | some err => some (Result.panic err s)
    | none =>
      -- s.Response(203, nil, "")
      match s.Response 203 none "" with
      | Result.panic msg s1 => some (Result.panic msg s1)
      | Result.blocked s1 => some (Result.blocked s1)
      | Result.ok _ s1 =>
        match waitUp t e fuel e.refused s1 [Effect.listen s.URL, Effect.serve] with
        | none => none
        | some (Result.panic msg s2) => some (Result.panic msg s2)
        | some (Result.blocked s2) => some (Result.blocked s2)
        | some (Result.ok eff s2) =>
          -- s.WaitRequest()
          match s2.WaitRequest with
          | Result.panic msg s3 => some (Result.panic msg s3)
          | Result.blocked s3 => some (Result.blocked s3)
          | Result.ok _ s3 => some (Result.ok eff s3)

/-! ## Sequences of calls -/

/-- A server as `Start` leaves its fields: flag set, both channels made with
capacity 1024 and holding no more than that. -/
def Started (s : HTTPServer) : Prop :=
  s.started = true ∧
  (∃ rq, s.request = some rq ∧ rq.cap = 1024 ∧ rq.buf.length ≤ 1024) ∧
  (∃ rs, s.response = some rs ∧ rs.cap = 1024 ∧ rs.buf.length ≤ 1024)

/-! ## Notions used in the statements -/

/-- The request as the handler stores it: the body stream replaced by a buffer
of the bytes that were left to read after `ParseMultipartForm`. -/
def stored (t : Transport) (req : Request) : Request :=
  { req with Body := req.Body.drop (t.parseReads req) }

/-- A possibly `nil` channel with its buffer discarded. -/
def emptied {α : Type} (c : Option (Chan α)) : Option (Chan α) :=
  c.map (fun ch => { ch with buf := [] })

/-- A descriptor the writer accepts: status 0 (none is written) or a status
within 100..999. -/
def Writable (resp : Response) : Prop :=
  resp.Status = 0 ∨ (100 ≤ resp.Status ∧ resp.Status ≤ 999)

instance (resp : Response) : Decidable (Writable resp) :=
  inferInstanceAs (Decidable (resp.Status = 0 ∨ (100 ≤ resp.Status ∧ resp.Status ≤ 999)))

/-- The calls on the writer of a handler that writes descriptor `resp` to its
end: a `Set` per header, `WriteHeader` for a non-zero status, `Write` of the
body. -/
def answerCalls (t : Transport) (resp : Response) : List WriterCall :=
  setHeaders t resp
  ++ (if resp.Status ≠ 0 then [WriterCall.writeHeader resp.Status] else [])
  ++ [WriterCall.write (bytes resp.Body)]

/-- The server state an outcome carries. -/
def Result.state {α : Type} : Result α → HTTPServer
  | Result.ok _ s => s
  | Result.panic _ s => s
  | Result.blocked s => s

/-! ## Example states and inputs -/

/-- A started server with nothing queued and nothing recorded. -/
def idle : HTTPServer :=
  { URL := "http://localhost:4444", Timeout := 25 * 1000000000, started := true,
    request := some (Chan.make Request 1024),
    response := some (Chan.make fakehttp.ResponseFunc 1024), SavedRequests := [] }

/-- A transport whose form parser reads nothing and whose `range` visits
headers in the order written. -/
def plainTransport : Transport := { parseReads := fun _ => 0, headerOrder := id }

/-- A `GET` of `path` without body. -/
def getRequest (path : String) : Request :=
  { Method := "GET", Path := path, Header := [], Body := [], BodyErr := none }

/-- The table of the two paths `/a` and `/b`. -/
def abMap : ResponseMap :=
  [("/a", { Status := 200, Headers := none, Body := "A" }),
   ("/b", { Status := 200, Headers := none, Body := "B" })]

/-- The idle server with two requests and three producers queued. -/
def busy : HTTPServer :=
  { idle with
    request := some { cap := 1024, buf := [getRequest "/1", getRequest "/2"] }
    response := some { cap := 1024, buf := List.replicate 3 (fixedFunc 404 none "missing") } }

/-- A transport whose form parser reads the body stream to its end, as
`ParseMultipartForm` does with a body of type `multipart/form-data`. -/
def formTransport : Transport := { parseReads := fun r => r.Body.length, headerOrder := id }

/-- A `POST` of a multipart form with the single field `k` of value `v`. -/
def multipartRequest : Request :=
  { Method := "POST", Path := "/upload",
    Header := [("Content-Type", "multipart/form-data; boundary=b")],
    Body := bytes "--b\r\nContent-Disposition: form-data; name=\"k\"\r\n\r\nv\r\n--b--\r\n",
    BodyErr := none }

/-- A `PUT` of the three bytes 1, 2, 3. -/
def plainRequest : Request :=
  { Method := "PUT", Path := "/plain", Header := [], Body := [1, 2, 3], BodyErr := none }

/-- The server `NewHTTPServer()` returns. -/
def fresh : HTTPServer :=
  { URL := "http://localhost:4444", Timeout := 25 * 1000000000, started := false,
    request := none, response := none, SavedRequests := [] }

/-- A start-up in which the listener binds, the first two `GET`s fail to
connect, and the third is delivered as a `GET` of `/`. -/
def slowEnv : StartEnv := { listenErr := none, refused := 2, probe := getRequest "/" }

/-! # Theorems -/

/-! ## Channels -/

/-- A completed receive shortens the queue by one element. -/
theorem Chan.recv_length {α : Type} {c : Option (Chan α)} {x : α} {c' : Chan α}
    (h : Chan.recv c = some (x, c')) : (queued (some c')).length + 1 = (queued c).length := by
  cases c with
  | none => simp [Chan.recv] at h
  | some ch =>
    cases hb : ch.buf with
    | nil => simp [Chan.recv, hb] at h
    | cons y rest =>
      simp only [Chan.recv, hb, Option.some.injEq, Prod.mk.injEq] at h
      obtain ⟨-, rfl⟩ := h
      simp [queued, hb]

/-! ## Scheduling -/

theorem sendResponses_ok (k : Nat) (f : ResponseFunc) :
    ∀ (s : HTTPServer) (c : Chan ResponseFunc), s.response = some c →
      c.buf.length + k ≤ c.cap →
      sendResponses k f s
        = Result.ok () { s with response := some { c with buf := c.buf ++ List.replicate k f } } := by
  induction k with
  | zero =>
    intro s c hs _
    cases s
    simp only at hs
    subst hs
    simp [sendResponses]
  | succ k ih =>
    intro s c hs hroom
    have hlt : c.buf.length < c.cap := by omega
    have hsend : Chan.send s.response f = some { c with buf := c.buf ++ [f] } := by
      simp [hs, Chan.send, hlt]
    rw [sendResponses, hsend]
    simp only
    rw [ih { s with response := some { c with buf := c.buf ++ [f] } }
      { c with buf := c.buf ++ [f] } rfl (by simp; omega)]
    simp [List.replicate_succ]

theorem rangeFind_mem (p : String) (l : List (String × Response)) (r : Response)
    (h : rangeFind p l = some r) : (p, r) ∈ l := by
  induction l with
  | nil => simp [rangeFind] at h
  | cons e rest ih =>
    obtain ⟨k, v⟩ := e
    simp only [rangeFind] at h
    by_cases hk : k = p
    · simp [hk] at h
      simp [hk, h]
    · simp [hk] at h
      exact List.mem_cons_of_mem _ (ih h)

theorem rangeFind_of_mem (p : String) (l : List (String × Response)) (r : Response)
    (hl : GoMap.Valid l) (h : (p, r) ∈ l) : rangeFind p l = some r := by
  induction l with
  | nil => simp at h
  | cons e rest ih =>
    obtain ⟨k, v⟩ := e
    simp only [GoMap.Valid, List.map_cons, List.nodup_cons] at hl
    simp only [rangeFind]
    rcases List.mem_cons.mp h with heq | hmem
    · simp only [Prod.mk.injEq] at heq
      simp [heq.1, heq.2]
    · have hne : k ≠ p := by
        rintro rfl
        exact hl.1 (List.mem_map.mpr ⟨(k, r), hmem, rfl⟩)
      simp [hne, ih hl.2 hmem]

theorem rangeFind_none (p : String) (l : List (String × Response))
    (h : ∀ r, (p, r) ∉ l) : rangeFind p l = none := by
  cases hf : rangeFind p l with
  | none => rfl
  | some r => exact absurd (rangeFind_mem p l r hf) (h r)

theorem valid_of_perm {V : Type} {l m : List (String × V)} (h : l.Perm m) (hm : GoMap.Valid m) :
    GoMap.Valid l :=
  ((h.map Prod.fst).nodup_iff).mpr hm

/-- C1: on a server whose response queue has room for them, `ResponseMap(n, m)`
appends `n` copies of one producer; whatever the order in which the map is
ranged over, that producer returns `m[p]` when `p` is a key of `m`, and
otherwise the descriptor with status 500, nil headers and body
"Path not found in response map: " followed by `p`. -/
theorem ResponseMap_lookup (order : ResponseMap → ResponseMap)
    (horder : ∀ m, (order m).Perm m) (m : ResponseMap) (hm : GoMap.Valid m)
    (s : HTTPServer) (c : Chan ResponseFunc) (hs : s.response = some c)
    (n : Nat) (hroom : c.buf.length + n ≤ c.cap) (p : String) :
    s.ResponseMap order n m
      = Result.ok ()
          { s with response := some { c with buf := c.buf ++ List.replicate n (responseMapFunc order m) } }
    ∧ (∀ r, (p, r) ∈ m → responseMapFunc order m p = r)
    ∧ ((∀ r, (p, r) ∉ m) → responseMapFunc order m p
        = { Status := 500, Headers := none, Body := "Path not found in response map: " ++ p }) := by
  refine ⟨?_, ?_, ?_⟩
  · simp only [HTTPServer.ResponseMap, HTTPServer.ResponseFunc, Int.toNat_ofNat]
    exact sendResponses_ok n _ s c hs hroom
  · intro r hr
    have h1 : rangeFind p (order m) = some r :=
      rangeFind_of_mem p (order m) r (valid_of_perm (horder m) hm) ((horder m).mem_iff.mpr hr)
    simp [responseMapFunc, h1]
  · intro hno
    have h1 : rangeFind p (order m) = none :=
      rangeFind_none p (order m) (fun r hr => hno r ((horder m).mem_iff.mp hr))
    simp [responseMapFunc, h1]

/-- Witness for C1: the table of `/a` and `/b`, ranged over in reverse, scheduled
twice on the idle server and asked for `/a` and for `/c`. -/
theorem ResponseMap_lookup_witness :
    GoMap.Valid abMap
    ∧ responseMapFunc List.reverse abMap "/a" = { Status := 200, Headers := none, Body := "A" }
    ∧ responseMapFunc List.reverse abMap "/c"
        = { Status := 500, Headers := none, Body := "Path not found in response map: /c" } :=
  have h := ResponseMap_lookup List.reverse (fun m => List.reverse_perm m) abMap (by decide)
    idle (Chan.make fakehttp.ResponseFunc 1024) rfl 2 (by decide)
  ⟨by decide, (h "/a").2.1 _ (by decide), (h "/c").2.2 (by simp [abMap])⟩

/-- C2: on a server whose response queue has room for `n` more entries,
`Responses(n, status, headers, body)` returns after appending exactly `n`
producers behind the entries already queued, which stay as they were; each
appended producer returns the descriptor `(status, headers, body)` for every
path; and `Response(status, headers, body)` is `Responses(1, status, headers, body)`. -/
theorem Responses_appends (s : HTTPServer) (c : Chan ResponseFunc) (hs : s.response = some c)
    (n : Nat) (hroom : c.buf.length + n ≤ c.cap) (status : Int)
    (headers : Option (List (String × String))) (body : String) :
    ∃ added : List ResponseFunc,
      added.length = n
      ∧ (∀ f ∈ added, ∀ path, f path = { Status := status, Headers := headers, Body := body })
      ∧ s.Responses n status headers body
          = Result.ok () { s with response := some { c with buf := c.buf ++ added } }
      ∧ s.Response status headers body = s.Responses 1 status headers body := by
  refine ⟨List.replicate n (fixedFunc status headers body), by simp, ?_, ?_, rfl⟩
  · intro f hf path
    rw [List.eq_of_mem_replicate hf]
    rfl
  · simp only [HTTPServer.Responses, HTTPServer.ResponseFunc, Int.toNat_ofNat]
    exact sendResponses_ok n _ s c hs hroom

/-- Witness for C2: three 404 answers scheduled on the idle server. -/
theorem Responses_appends_witness :
    ∃ added : List ResponseFunc,
      added.length = 3
      ∧ (∀ f ∈ added, ∀ path, f path = { Status := 404, Headers := none, Body := "missing" })
      ∧ idle.Responses (3 : Nat) 404 none "missing"
          = Result.ok ()
              { idle with response := some { Chan.make fakehttp.ResponseFunc 1024 with buf := [] ++ added } }
      ∧ idle.Response 404 none "missing" = idle.Responses 1 404 none "missing" :=
  Responses_appends idle (Chan.make fakehttp.ResponseFunc 1024) rfl 3 (by decide) 404 none
    "missing"

/-! ## The handler -/

theorem writeResponse_ok (t : Transport) (resp : Response) (h : Writable resp) :
    writeResponse t resp = Except.ok (answerCalls t resp) := by
  unfold writeResponse answerCalls
  by_cases h0 : resp.Status = 0
  · simp [h0]
  · have hv : validStatus resp.Status = true := by
      rcases h with h | h
      · exact absurd h h0
      · simp [validStatus, h]
    simp [h0, hv]

theorem ServeHTTP_recv (t : Transport) (s : HTTPServer) (rq : Chan Request)
    (hrq : s.request = some rq) (hroom : rq.buf.length < rq.cap)
    (rs : Chan ResponseFunc) (f : ResponseFunc) (rest : List ResponseFunc)
    (hrs : s.response = some rs) (hbuf : rs.buf = f :: rest)
    (req : Request) (herr : req.BodyErr = none) (hw : Writable (f req.Path)) :
    s.ServeHTTP t req
      = Result.ok
          { calls := answerCalls t (f req.Path), invoked := [(f, req.Path)], stderr := [] }
          { s with
            SavedRequests := s.SavedRequests ++ [{ Request := stored t req, Data := (stored t req).Body }]
            request := some { rq with buf := rq.buf ++ [stored t req] }
            response := some { rs with buf := rest } } := by
  simp [HTTPServer.ServeHTTP, herr, hrq, Chan.send, hroom, hrs, Chan.recv, hbuf, stored,
    writeResponse_ok t (f req.Path) hw]

theorem ServeHTTP_timeout (t : Transport) (s : HTTPServer) (rq : Chan Request)
    (hrq : s.request = some rq) (hroom : rq.buf.length < rq.cap)
    (hnone : queued s.response = [])
    (req : Request) (herr : req.BodyErr = none) :
    s.ServeHTTP t req
      = Result.ok
          { calls := [WriterCall.writeHeader 500, WriterCall.write (bytes timeoutMsg)],
            invoked := [], stderr := [timeoutMsg] }
          { s with
            SavedRequests := s.SavedRequests ++ [{ Request := stored t req, Data := (stored t req).Body }]
            request := some { rq with buf := rq.buf ++ [stored t req] } } := by
  have hrecv : Chan.recv s.response = none := by
    cases hr : s.response with
    | none => rfl
    | some rs =>
      rw [hr] at hnone
      simp only [queued] at hnone
      simp [Chan.recv, hnone]
  have hw : writeResponse t { Status := 500, Headers := none, Body := timeoutMsg }
      = Except.ok [WriterCall.writeHeader 500, WriterCall.write (bytes timeoutMsg)] := by
    rw [writeResponse_ok t _ (Or.inr (by decide))]
    simp [answerCalls, setHeaders]
  simp [HTTPServer.ServeHTTP, herr, hrq, Chan.send, hroom, hrecv, stored, hw]

/-- C4: a handler invocation that can push its request and finds no producer
(the response queue is empty or nil, and with no concurrent sender stays so
until the timer fires) returns after writing status 500, no header, and the
body "ERROR: Timeout waiting for test to prepare a response\n"; it invokes no
producer and leaves the response queue as it was, while the request is appended
to the history and to the request queue. -/
theorem ServeHTTP_no_response (t : Transport) (s : HTTPServer) (rq : Chan Request)
    (hrq : s.request = some rq) (hroom : rq.buf.length < rq.cap)
    (hnone : queued s.response = []) (req : Request) (herr : req.BodyErr = none) :
    ∃ out s1, s.ServeHTTP t req = Result.ok out s1
      ∧ out.calls = [WriterCall.writeHeader 500,
          WriterCall.write (bytes "ERROR: Timeout waiting for test to prepare a response\n")]
      ∧ out.invoked = []
      ∧ s1.response = s.response
      ∧ s1.SavedRequests
          = s.SavedRequests ++ [{ Request := stored t req, Data := (stored t req).Body }]
      ∧ s1.request = some { rq with buf := rq.buf ++ [stored t req] } :=
  ⟨_, _, ServeHTTP_timeout t s rq hrq hroom hnone req herr, rfl, rfl, rfl, rfl, rfl⟩

/-- Witness for C4: the idle server handling a `GET` of `/late`. -/
theorem ServeHTTP_no_response_witness :
    queued idle.response = []
    ∧ ∃ out s1, idle.ServeHTTP plainTransport (getRequest "/late") = Result.ok out s1
      ∧ out.calls = [WriterCall.writeHeader 500,
          WriterCall.write (bytes "ERROR: Timeout waiting for test to prepare a response\n")]
      ∧ out.invoked = []
      ∧ s1.response = idle.response
      ∧ s1.SavedRequests
          = idle.SavedRequests ++ [{ Request := stored plainTransport (getRequest "/late"),
                                     Data := (stored plainTransport (getRequest "/late")).Body }]
      ∧ s1.request = some { Chan.make Request 1024 with
          buf := [] ++ [stored plainTransport (getRequest "/late")] } :=
  ⟨rfl, ServeHTTP_no_response plainTransport idle (Chan.make Request 1024) rfl (by decide) rfl
    (getRequest "/late") rfl⟩

/-! ## Waiting for requests -/

theorem recvRequests_take (k : Nat) :
    ∀ (acc : List Request) (s : HTTPServer) (q : Chan Request), s.request = some q →
      k ≤ q.buf.length →
      recvRequests k acc s
        = Result.ok (acc ++ q.buf.take k) { s with request := some { q with buf := q.buf.drop k } } := by
  induction k with
  | zero =>
    intro acc s q hs _
    cases s
    simp only at hs
    subst hs
    simp [recvRequests]
  | succ k ih =>
    intro acc s q hs hk
    cases hb : q.buf with
    | nil => simp [hb] at hk
    | cons r rest =>
      have hrecv : Chan.recv s.request = some (r, { q with buf := rest }) := by
        simp [hs, Chan.recv, hb]
      rw [recvRequests, hrecv]
      simp only
      rw [ih (acc ++ [r]) { s with request := some { q with buf := rest } } { q with buf := rest }
        rfl (by simp [hb] at hk; simpa using hk)]
      simp

theorem recvRequests_short (k : Nat) :
    ∀ (acc : List Request) (s : HTTPServer), (queued s.request).length < k →
      ∃ s1, recvRequests k acc s = Result.panic "Timeout waiting for request" s1
        ∧ queued s1.request = [] ∧ s1.response = s.response
        ∧ s1.SavedRequests = s.SavedRequests := by
  induction k with
  | zero => intro acc s h; simp at h
  | succ k ih =>
    intro acc s h
    cases hrecv : Chan.recv s.request with
    | none =>
      refine ⟨s, by rw [recvRequests, hrecv], ?_, rfl, rfl⟩
      cases hq : s.request with
      | none => rfl
      | some q =>
        cases hb : q.buf with
        | nil => simp [queued, hb]
        | cons r rest => simp [hq, Chan.recv, hb] at hrecv
    | some rc =>
      obtain ⟨r, c⟩ := rc
      have hlen := Chan.recv_length hrecv
      obtain ⟨s1, h1, h2, h3, h4⟩ := ih (acc ++ [r]) { s with request := some c } (by simp only; omega)
      exact ⟨s1, by rw [recvRequests, hrecv]; exact h1, h2, h3, h4⟩

theorem WaitRequests_small (s : HTTPServer) (n : Nat) (hn : n ≤ maxSliceCap) :
    s.WaitRequests n = recvRequests n [] s := by
  have hc : ¬ ((n : Int) < 0 ∨ (maxSliceCap : Int) < (n : Int)) := by omega
  simp only [HTTPServer.WaitRequests, hc, if_false, Int.toNat_ofNat]

theorem WaitRequests_one (s : HTTPServer) : s.WaitRequests 1 = recvRequests 1 [] s :=
  WaitRequests_small s 1 (by decide)

theorem WaitRequest_head (s : HTTPServer) (q : Chan Request) (hs : s.request = some q)
    (r : Request) (rest : List Request) (hb : q.buf = r :: rest) :
    s.WaitRequest = Result.ok r { s with request := some { q with buf := rest } } := by
  have h := recvRequests_take 1 [] s q hs (by simp [hb])
  simp only [HTTPServer.WaitRequest, WaitRequests_one, h, hb]
  simp

theorem emptied_of_recv {α : Type} {c : Option (Chan α)} {x : α} {c1 : Chan α}
    (h : Chan.recv c = some (x, c1)) : emptied (some c1) = emptied c := by
  cases c with
  | none => simp [Chan.recv] at h
  | some ch =>
    cases hb : ch.buf with
    | nil => simp [Chan.recv, hb] at h
    | cons y rest =>
      simp only [Chan.recv, hb, Option.some.injEq, Prod.mk.injEq] at h
      obtain ⟨-, rfl⟩ := h
      simp [emptied]

theorem emptied_of_recv_none {α : Type} {c : Option (Chan α)}
    (h : Chan.recv c = none) : emptied c = c := by
  cases c with
  | none => rfl
  | some ch =>
    cases hb : ch.buf with
    | nil =>
      cases ch
      simp only at hb
      subst hb
      rfl
    | cons y rest => simp [Chan.recv, hb] at h

theorem flushLoop_eq (pick : Nat → Bool) :
    ∀ (m i : Nat) (s : HTTPServer), pending s = m →
      flushLoop pick i s
        = { s with request := emptied s.request, response := emptied s.response } := by
  intro m
  induction m using Nat.strong_induction_on with
  | _ m ih =>
    intro i s hm
    rw [flushLoop]
    split
    · rename_i x c y c1 hq hp
      have h1 := Chan.recv_length hq
      have h2 := Chan.recv_length hp
      split
      · rw [ih (pending { s with request := some c }) (by simp only [pending] at hm ⊢; omega)
          _ _ rfl]
        simp [emptied_of_recv hq]
      · rw [ih (pending { s with response := some c1 }) (by simp only [pending] at hm ⊢; omega)
          _ _ rfl]
        simp [emptied_of_recv hp]
    · rename_i x c hq hp
      have h1 := Chan.recv_length hq
      rw [ih (pending { s with request := some c }) (by simp only [pending] at hm ⊢; omega) _ _ rfl]
      simp [emptied_of_recv hq]
    · rename_i y c1 hq hp
      have h2 := Chan.recv_length hp
      rw [ih (pending { s with response := some c1 }) (by simp only [pending] at hm ⊢; omega)
        _ _ rfl]
      simp [emptied_of_recv hp]
    · rename_i hq hp
      rw [emptied_of_recv_none hq, emptied_of_recv_none hp]

theorem Flush_eq (s : HTTPServer) (pick : Nat → Bool) :
    s.Flush pick = { s with request := emptied s.request, response := emptied s.response } :=
  flushLoop_eq pick (pending s) 0 s rfl

/-- C6: on a started server `Flush` returns (whichever ready queue each
iteration of its loop takes, `pick` being any such choice), and on return both
queues are empty while flag, channels and history are as before; a `WaitRequest`
that follows panics with "Timeout waiting for request", and a request handled
next is answered with status 500 and the timeout body, no producer being
invoked. -/
theorem Flush_empties (s : HTTPServer) (hs : Started s) (pick : Nat → Bool) (t : Transport)
    (req : Request) (herr : req.BodyErr = none) :
    queued (s.Flush pick).request = []
    ∧ queued (s.Flush pick).response = []
    ∧ Started (s.Flush pick)
    ∧ (s.Flush pick).SavedRequests = s.SavedRequests
    ∧ (∃ s1, (s.Flush pick).WaitRequest = Result.panic "Timeout waiting for request" s1)
    ∧ (∃ out s1, (s.Flush pick).ServeHTTP t req = Result.ok out s1
        ∧ out.calls = [WriterCall.writeHeader 500,
            WriterCall.write (bytes "ERROR: Timeout waiting for test to prepare a response\n")]
        ∧ out.invoked = []) := by
  obtain ⟨hst, ⟨rq, hrq, hrqc, -⟩, ⟨rs, hrs, hrsc, -⟩⟩ := hs
  have hq : (s.Flush pick).request = some { rq with buf := [] } := by
    rw [Flush_eq]; simp [hrq, emptied]
  have hp : (s.Flush pick).response = some { rs with buf := [] } := by
    rw [Flush_eq]; simp [hrs, emptied]
  have hh : (s.Flush pick).SavedRequests = s.SavedRequests := by rw [Flush_eq]
  have hf : (s.Flush pick).started = true := by rw [Flush_eq]; exact hst
  refine ⟨by rw [hq]; rfl, by rw [hp]; rfl, ⟨hf, ⟨_, hq, hrqc, by simp⟩, ⟨_, hp, hrsc, by simp⟩⟩,
    hh, ?_, ?_⟩
  · obtain ⟨s1, h1, -⟩ := recvRequests_short 1 [] (s.Flush pick) (by rw [hq]; simp [queued])
    refine ⟨s1, ?_⟩
    simp only [HTTPServer.WaitRequest, WaitRequests_one, h1]
  · exact ⟨_, _, ServeHTTP_timeout t (s.Flush pick) _ hq (by simp [hrqc]) (by rw [hp]; rfl) req herr,
      rfl, rfl⟩

/-- Witness for C6: the busy server flushed, the loop alternating between the
two queues. -/
theorem Flush_empties_witness :
    Started busy
    ∧ queued (busy.Flush (fun i => i % 2 == 0)).request = []
    ∧ queued (busy.Flush (fun i => i % 2 == 0)).response = []
    ∧ ∃ s1, (busy.Flush (fun i => i % 2 == 0)).WaitRequest
        = Result.panic "Timeout waiting for request" s1 :=
  have hb : Started busy := ⟨rfl, ⟨_, rfl, rfl, by decide⟩, ⟨_, rfl, rfl, by decide⟩⟩
  have h := Flush_empties busy hb (fun i => i % 2 == 0) plainTransport (getRequest "/") rfl
  ⟨hb, h.1, h.2.1, h.2.2.2.2.1⟩

/-! ## Positional matching -/

theorem drop_eq_self_iff {α : Type} (k : Nat) (l : List α) :
    l.drop k = l ↔ k = 0 ∨ l = [] := by
  constructor
  · intro h
    have hlen : (l.drop k).length = l.length := by rw [h]
    rw [List.length_drop] at hlen
    by_cases hk : k = 0
    · exact Or.inl hk
    · right
      apply List.length_eq_zero.mp
      omega
  · rintro (rfl | rfl) <;> simp

theorem ServeHTTP_saved (t : Transport) (s : HTTPServer) (req : Request) (out : HandlerOut)
    (s1 : HTTPServer) (h : s.ServeHTTP t req = Result.ok out s1) :
    s1.SavedRequests
      = s.SavedRequests ++ [{ Request := stored t req, Data := (stored t req).Body }] := by
  simp only [HTTPServer.ServeHTTP] at h
  split at h
  · cases h
  · split at h
    · cases h
    · split at h
      · split at h
        · simp only [Result.ok.injEq] at h
          rw [← h.2]
          rfl
        · cases h
      · split at h
        · simp only [Result.ok.injEq] at h
          rw [← h.2]
          rfl
        · cases h

/-- C8 (as the code has it): for every request the handler handles to its end,
the entry appended to the history holds, both as `Data` and as the body of the
stored request, the bytes of the body stream that were still unread after
`ParseMultipartForm`; these are the bytes sent exactly when the parser read
nothing from the body or the body is empty. -/
theorem recorded_body_is_unread_rest (t : Transport) (s : HTTPServer) (req : Request)
    (out : HandlerOut) (s1 : HTTPServer) (h : s.ServeHTTP t req = Result.ok out s1) :
    ∃ e : SavedRequest, s1.SavedRequests = s.SavedRequests ++ [e]
      ∧ e.Data = req.Body.drop (t.parseReads req)
      ∧ e.Request.Body = e.Data
      ∧ (e.Data = req.Body ↔ t.parseReads req = 0 ∨ req.Body = []) :=
  ⟨_, ServeHTTP_saved t s req out s1 h, rfl, rfl, drop_eq_self_iff _ _⟩

/-- Witness for C8: a plain body of three bytes, handled by the idle server
with a parser that reads nothing, is recorded whole. -/
theorem recorded_body_is_unread_rest_witness :
    ∃ e : SavedRequest, e.Data = [1, 2, 3] ∧ e.Request.Body = [1, 2, 3] := by
  have hrun := ServeHTTP_timeout plainTransport idle (Chan.make Request 1024) rfl (by decide) rfl
    plainRequest rfl
  obtain ⟨e, -, h2, h3, h4⟩ := recorded_body_is_unread_rest plainTransport idle _ _ _ hrun
  have h5 : e.Data = [1, 2, 3] := h4.mpr (Or.inl rfl)
  exact ⟨e, h5, h3.trans h5⟩

/-- C8 fails as stated: the idle server handling a multipart form, which the
form parser reads to its end, records no byte of the body that was sent. -/
theorem recorded_body_multipart_lost :
    multipartRequest.Body ≠ []
    ∧ ∃ out s1, idle.ServeHTTP formTransport multipartRequest = Result.ok out s1
        ∧ s1.SavedRequests.map SavedRequest.Data = [[]]
        ∧ s1.SavedRequests.map (fun e => e.Request.Body) = [[]]
        ∧ ∀ e ∈ s1.SavedRequests, e.Data ≠ multipartRequest.Body := by
  refine ⟨by decide, _, _,
    ServeHTTP_timeout formTransport idle (Chan.make Request 1024) rfl (by decide) rfl
      multipartRequest rfl, ?_, ?_, ?_⟩
  · simp [idle, stored, formTransport]
  · simp [idle, stored, formTransport]
  · intro e he
    have hd : e.Data = [] := by
      simp only [idle, List.nil_append, List.mem_singleton] at he
      rw [he]
      simp [stored, formTransport]
    rw [hd]
    decide

/-! ## Start -/

theorem sendResponses_started (k : Nat) (f : ResponseFunc) :
    ∀ s : HTTPServer, (sendResponses k f s).state.started = s.started := by
  induction k with
  | zero => intro s; rfl
  | succ k ih =>
    intro s
    rw [sendResponses]
    split
    · rfl
    · rename_i c hc
      exact ih { s with response := some c }

theorem recvRequests_frame (k : Nat) :
    ∀ (acc : List Request) (s : HTTPServer),
      (recvRequests k acc s).state.started = s.started
      ∧ (recvRequests k acc s).state.SavedRequests = s.SavedRequests := by
  induction k with
  | zero => intro acc s; exact ⟨rfl, rfl⟩
  | succ k ih =>
    intro acc s
    rw [recvRequests]
    split
    · rename_i req c hc
      exact ih (acc ++ [req]) { s with request := some c }
    · exact ⟨rfl, rfl⟩

theorem WaitRequests_frame (s : HTTPServer) (n : Int) :
    (s.WaitRequests n).state.started = s.started
    ∧ (s.WaitRequests n).state.SavedRequests = s.SavedRequests := by
  unfold HTTPServer.WaitRequests
  split
  · exact ⟨rfl, rfl⟩
  · exact recvRequests_frame _ _ _

theorem WaitRequest_frame (s : HTTPServer) :
    s.WaitRequest.state.started = s.started
    ∧ s.WaitRequest.state.SavedRequests = s.SavedRequests := by
  have h := WaitRequests_frame s 1
  unfold HTTPServer.WaitRequest
  split
  · rename_i reqs s1 hw
    rw [hw] at h
    split <;> exact h
  · rename_i msg s1 hw
    rw [hw] at h
    exact h
  · rename_i s1 hw
    rw [hw] at h
    exact h

theorem ServeHTTP_started (s : HTTPServer) (t : Transport) (req : Request) :
    (s.ServeHTTP t req).state.started = s.started := by
  simp only [HTTPServer.ServeHTTP]
  split
  · rfl
  · split
    · rfl
    · split <;> split <;> rfl

theorem waitUp_started (t : Transport) (e : StartEnv) (fuel : Nat) :
    ∀ (refused : Nat) (s : HTTPServer) (eff : List Effect) (r : Result (List Effect)),
      waitUp t e fuel refused s eff = some r → r.state.started = s.started := by
  induction fuel with
  | zero => intro refused s eff r h; simp [waitUp] at h
  | succ fuel ih =>
    intro refused s eff r h
    cases refused with
    | succ refused =>
      rw [waitUp] at h
      exact ih _ _ _ _ h
    | zero =>
      have hs := ServeHTTP_started s t e.probe
      rw [waitUp] at h
      split at h
      · rename_i out s1 hserve
        rw [hserve] at hs
        split at h
        · simp only [Option.some.injEq] at h
          rw [← h]
          exact hs
        · rw [ih _ _ _ _ h]
          exact hs
      · rename_i msg s1 hserve
        rw [hserve] at hs
        rw [ih _ _ _ _ h]
        exact hs
      · rename_i s1 hserve
        rw [hserve] at hs
        simp only [Option.some.injEq] at h
        rw [← h]
        exact hs

theorem Start_sets_started (s : HTTPServer) (t : Transport) (e : StartEnv) (fuel : Nat)
    (eff : List Effect) (s1 : HTTPServer) (h : s.Start t e fuel = some (Result.ok eff s1)) :
    s1.started = true := by
  unfold HTTPServer.Start at h
  split at h
  · rename_i hst
    simp only [Option.some.injEq, Result.ok.injEq] at h
    rw [← h.2]
    exact hst
  · simp only at h
    split at h
    · simp at h
    · split at h
      · simp at h
      · simp at h
      · rename_i u s2 hresp
        have h2 : s2.started = true := by
          have := sendResponses_started 1 (fixedFunc 203 none "")
            { s with started := true, request := some (Chan.make Request 1024),
                     response := some (Chan.make fakehttp.ResponseFunc 1024) }
          simp only [HTTPServer.Response, HTTPServer.Responses, HTTPServer.ResponseFunc] at hresp
          rw [show Int.toNat 1 = 1 from rfl] at hresp
          rw [hresp] at this
          exact this
        split at h
        · simp at h
        · simp at h
        · simp at h
        · rename_i eff1 s3 hwait
          have h3 : s3.started = true := by
            rw [← h2]
            exact waitUp_started t e fuel _ _ _ _ hwait
          have h4 := (WaitRequest_frame s3).1
          split at h
          · simp at h
          · simp at h
          · rename_i r s4 hw
            simp only [Option.some.injEq, Result.ok.injEq] at h
            rw [hw] at h4
            rw [← h.2, ← h3]
            exact h4

theorem waitUp_ready (t : Transport) (e : StartEnv) (s s1 : HTTPServer) (out : HandlerOut)
    (hserve : s.ServeHTTP t e.probe = Result.ok out s1) (hcode : statusCode out.calls = 203) :
    ∀ (refused fuel : Nat) (eff : List Effect), refused < fuel →
      ∃ eff1, waitUp t e fuel refused s eff = some (Result.ok eff1 s1) := by
  intro refused
  induction refused with
  | zero =>
    intro fuel eff hf
    obtain ⟨fuel, rfl⟩ : ∃ k, fuel = k + 1 := ⟨fuel - 1, by omega⟩
    exact ⟨eff ++ [Effect.get s.URL], by rw [waitUp, hserve]; simp [hcode]⟩
  | succ refused ih =>
    intro fuel eff hf
    obtain ⟨fuel, rfl⟩ : ∃ k, fuel = k + 1 := ⟨fuel - 1, by omega⟩
    obtain ⟨eff1, h1⟩ := ih fuel (eff ++ [Effect.get s.URL, Effect.sleep 100000000]) (by omega)
    exact ⟨eff1, by rw [waitUp, h1]⟩

theorem Start_fresh (s : HTTPServer) (hst : s.started = false) (t : Transport) (e : StartEnv)
    (fuel : Nat) (hlisten : e.listenErr = none) (hprobe : e.probe.BodyErr = none)
    (hfuel : e.refused < fuel) :
    ∃ eff, s.Start t e fuel
      = some (Result.ok eff
          { s with
            started := true
            request := some { cap := 1024, buf := [] }
            response := some { cap := 1024, buf := [] }
            SavedRequests := s.SavedRequests
              ++ [{ Request := stored t e.probe, Data := (stored t e.probe).Body }] }) := by
  have hserve := ServeHTTP_recv t
    { s with started := true, request := some (Chan.make Request 1024),
             response := some { cap := 1024, buf := [fixedFunc 203 none ""] } }
    (Chan.make Request 1024) rfl (by decide)
    { cap := 1024, buf := [fixedFunc 203 none ""] } (fixedFunc 203 none "") [] rfl rfl
    e.probe hprobe (Or.inr (by simp [fixedFunc]))
  obtain ⟨eff, hwait⟩ := waitUp_ready t e _ _ _ hserve
    (by simp [answerCalls, setHeaders, fixedFunc, statusCode]) e.refused fuel
    [Effect.listen s.URL, Effect.serve] hfuel
  have hresp :
      HTTPServer.Response
        { s with started := true, request := some (Chan.make Request 1024),
                 response := some (Chan.make fakehttp.ResponseFunc 1024) } 203 none ""
        = Result.ok ()
            { s with started := true, request := some (Chan.make Request 1024),
                     response := some { cap := 1024, buf := [fixedFunc 203 none ""] } } := rfl
  refine ⟨eff, ?_⟩
  unfold HTTPServer.Start
  simp only [hst, Bool.false_eq_true, if_false, hlisten, hresp, hwait]
  rw [WaitRequest_head _ { cap := 1024, buf := [stored t e.probe] } rfl (stored t e.probe) [] rfl]

/-- C9: on a server whose started flag is set, `Start` returns at once with the
state unchanged in every field and without any action on the outside world (no
bind, no serving loop, no probe `GET`), so nothing is queued; and since a
`Start` that returns leaves the flag set, a `Start` after it is such a no-op. -/
theorem Start_idempotent (s : HTTPServer) (hs : s.started = true) (t : Transport)
    (e : StartEnv) (fuel : Nat) (s0 : HTTPServer) (t0 : Transport) (e0 : StartEnv) (fuel0 : Nat)
    (eff : List Effect) (s1 : HTTPServer)
    (h0 : s0.Start t0 e0 fuel0 = some (Result.ok eff s1)) :
    s.Start t e fuel = some (Result.ok [] s)
    ∧ s1.Start t e fuel = some (Result.ok [] s1) := by
  have h1 := Start_sets_started s0 t0 e0 fuel0 eff s1 h0
  constructor
  · simp [HTTPServer.Start, hs]
  · simp [HTTPServer.Start, h1]

/-- Witness for C9: `Start` on the idle server, and `Start` after the first
`Start` of the fresh server. -/
theorem Start_idempotent_witness :
    idle.Start plainTransport slowEnv 0 = some (Result.ok [] idle)
    ∧ ∃ eff s1, fresh.Start plainTransport slowEnv 3 = some (Result.ok eff s1)
        ∧ s1.Start plainTransport slowEnv 0 = some (Result.ok [] s1) := by
  obtain ⟨eff, h0⟩ := Start_fresh fresh rfl plainTransport slowEnv 3 rfl rfl (by decide)
  have h := Start_idempotent idle rfl plainTransport slowEnv 0 fresh plainTransport slowEnv 3
    eff _ h0
  exact ⟨h.1, eff, _, h0, h.2⟩

/-- C10: the first `Start` of a freshly constructed server, the listener
binding and the probe being delivered after finitely many refused connections,
returns with both queues empty and with a history of exactly one entry, the
probe request; `Flush` and `WaitRequests` leave the history as it is, and so
does a further `Start`. -/
theorem Start_leaves_probe_in_history (parseOk : String → Bool) (port : Int) (s : HTTPServer)
    (hnew : NewHTTPServerWithPort parseOk port = Except.ok s) (t : Transport) (e : StartEnv)
    (fuel : Nat) (hlisten : e.listenErr = none) (hprobe : e.probe.BodyErr = none)
    (hfuel : e.refused < fuel) :
    ∃ eff s1, s.Start t e fuel = some (Result.ok eff s1)
      ∧ queued s1.request = []
      ∧ queued s1.response = []
      ∧ s1.SavedRequests = [{ Request := stored t e.probe, Data := (stored t e.probe).Body }]
      ∧ s1.SavedRequests ≠ []
      ∧ (∀ pick, (s1.Flush pick).SavedRequests = s1.SavedRequests)
      ∧ (∀ n, (s1.WaitRequests n).state.SavedRequests = s1.SavedRequests)
      ∧ (∀ t1 e1 fuel1, s1.Start t1 e1 fuel1 = some (Result.ok [] s1)) := by
  have hs : s.started = false ∧ s.SavedRequests = [] := by
    unfold NewHTTPServerWithPort at hnew
    simp only at hnew
    split at hnew
    · simp only [Except.ok.injEq] at hnew
      rw [← hnew]
      exact ⟨rfl, rfl⟩
    · cases hnew
  obtain ⟨eff, h⟩ := Start_fresh s hs.1 t e fuel hlisten hprobe hfuel
  refine ⟨eff, _, h, rfl, rfl, by simp [hs.2], by simp, ?_, ?_, ?_⟩
  · intro pick
    rw [Flush_eq]
  · intro n
    exact (WaitRequests_frame _ n).2
  · intro t1 e1 fuel1
    simp [HTTPServer.Start]

/-- Witness for C10: `NewHTTPServer()` started while two connections are
refused before the probe gets through. -/
theorem Start_leaves_probe_in_history_witness :
    NewHTTPServer (fun _ => true) = Except.ok fresh
    ∧ ∃ eff s1, fresh.Start plainTransport slowEnv 3 = some (Result.ok eff s1)
        ∧ queued s1.request = []
        ∧ queued s1.response = []
        ∧ s1.SavedRequests.length = 1 := by
  obtain ⟨eff, s1, h1, h2, h3, h4, -⟩ :=
    Start_leaves_probe_in_history (fun _ => true) 4444 fresh rfl plainTransport slowEnv 3 rfl rfl
      (by decide)
  exact ⟨rfl, eff, s1, h1, h2, h3, by rw [h4]; rfl⟩

end fakehttp
